import Mathlib

/-!
Shallow embedding of `ohc-uploader.py`, a one-shot uploader for the
OnlineHashCrack v2 API.  Pure file/set logic is translated directly; the
network is modelled by a `World` record that scripts the HTTP responses
(`none` = transport-level failure, i.e. a raised `requests.RequestException`),
and a run is summarised by a `RunResult` recording the exit code, the number
of list_tasks calls issued, the submit payloads issued, and the contents of
the overflow file if one was written.
-/

namespace OhcUploader

/-- A task entry of a list_tasks response.  `t.get("hash")` in the source
returns `None` both when the field is missing and when it is JSON null, so
both are modelled as `none`; other fields are opaque and omitted. -/
structure Task where
  hash : Option String
deriving DecidableEq

/-- A successfully JSON-parsed response body: the fields the source reads via
`.get`, each `Option` because `.get` defaults when the key is absent. -/
structure ApiBody where
  success : Option Bool
  message : Option String
  text : Option String
  tasks : Option (List Task)
deriving DecidableEq

/-- A raw HTTP response as seen by `ohc_post`: the transport status code, the
parsed JSON body (`none` when `resp.json()` raises), and the raw text. -/
structure HttpResp where
  status : Nat
  body : Option ApiBody
  text : String
deriving DecidableEq

/-- What `ohc_post` returns: the body fields plus the attached
`_http_status`. -/
structure OhcResult where
  success : Option Bool
  message : Option String
  text : Option String
  tasks : Option (List Task)
  httpStatus : Nat
deriving DecidableEq

/-- The payload of one submit (upload) request, as built in `main` step 4. -/
structure SubmitPayload where
  api_key : String
  agree_terms : String
  algo_mode : Nat
  hashes : List String
deriving DecidableEq

/-- The CONFIG block at the top of the script (`API_KEY`, `AGREE_TERMS`); a
run is parametrised by it because the user edits these constants. -/
structure Config where
  apiKey : String
  agreeTerms : String
deriving DecidableEq

/-- The environment of one run: the `*.hc22000` files present in the working
directory (filename together with the raw lines read from it), and the
scripted response to the list_tasks call resp. the submit call (`none`
models a transport failure / `requests.RequestException`). -/
structure World where
  files : List (String × List String)
  listResp : Option HttpResp
  submitResp : Option HttpResp

/-- Observable outcome of one run: process exit code, how many list_tasks
requests and which submit requests went out, and the overflow file contents
(`none` when no overflow file was written, `some lines` when it was
(over)written with those lines). -/
structure RunResult where
  exitCode : Nat
  listCalls : Nat
  submitCalls : List SubmitPayload
  overflowFile : Option (List String)
deriving DecidableEq

/-- `API_KEY = "sk_XXXXXX"` — the placeholder shipped in the source. -/
def API_KEY : String := "sk_XXXXXX"

/-- `AGREE_TERMS = "yes"`. -/
def AGREE_TERMS : String := "yes"

/-- `ALGO_MODE = 22000`. -/
def ALGO_MODE : Nat := 22000

/-- `MAX_HASHES_PER_REQUEST = 50`. -/
def MAX_HASHES_PER_REQUEST : Nat := 50

/-- `OVERFLOW_FILE = "ohc_overflow_hashes.txt"`. -/
def OVERFLOW_FILE : String := "ohc_overflow_hashes.txt"

/-- Drop leading whitespace characters from a character sequence. -/
def dropLeadingWs : List Char → List Char
  | [] => []
  | c :: t => if c.isWhitespace then dropLeadingWs t else c :: t

/-- Python `str.strip()`: a Python string is a sequence of code points, so
strip is modelled on `String.data` — drop whitespace from the front, then
from the back (via reverse). -/
def pyStrip (s : String) : String :=
  ⟨(dropLeadingWs ((dropLeadingWs s.data).reverse)).reverse⟩

/-- Code-point prefix test, the core of Python `str.startswith`. -/
def isPrefixChars : List Char → List Char → Bool
  | [], _ => true
  | _ :: _, [] => false
  | a :: as, b :: bs => a == b && isPrefixChars as bs

/-- Python `s.startswith(pre)` on code-point sequences. -/
def pyStartsWith (s pre : String) : Bool :=
  isPrefixChars pre.data s.data

/-- Python's lexicographic `<=` on strings, compared code point by code
point (used by `sorted`). -/
def lexLe : List Char → List Char → Bool
  | [], _ => true
  | _ :: _, [] => false
  | a :: as, b :: bs =>
    if a.toNat = b.toNat then lexLe as bs else decide (a.toNat < b.toNat)

/-- Python string `<=`, for sorting filenames. -/
def pyLe (a b : String) : Bool :=
  lexLe a.data b.data

/-- The per-line cleaning of `read_hashes_from_files`: `h = line.strip()`,
then skip `h` when it is empty (`not h`) or starts with `#`. -/
def cleanLines (lines : List String) : List String :=
  (lines.map pyStrip).filter (fun h => !(h.data.isEmpty || pyStartsWith h "#"))

/-- `sorted(glob.glob(pattern))`: the matching files in lexicographically
sorted filename order (Python `sorted` is stable; insertion sort is too). -/
def sortedFiles (files : List (String × List String)) : List (String × List String) :=
  List.insertionSort (fun a b => pyLe a.1 b.1 = true) files

/-- The `all_hashes` list of `read_hashes_from_files`: the concatenation of
the cleaned lines of every matching file, files in sorted filename order. -/
def cleanedConcat (files : List (String × List String)) : List String :=
  ((sortedFiles files).map (fun f => cleanLines f.2)).flatten

/-- The de-dupe loop of `read_hashes_from_files`: walk the list keeping a
`seen` set (modelled as the list of already-seen strings; only membership is
used) and keep each hash only at its first occurrence. -/
def dedupeLoop : List String → List String → List String
  | _, [] => []
  | seen, h :: t =>
    if h ∈ seen then dedupeLoop seen t
    else h :: dedupeLoop (h :: seen) t

/-- `read_hashes_from_files`: return `[]` when no file matches, otherwise
clean and concatenate all files in sorted order and de-dupe preserving
first-occurrence order. -/
def read_hashes_from_files (files : List (String × List String)) : List String :=
  if files = [] then []
  else dedupeLoop [] (cleanedConcat files)

/-- `ohc_post`: parse the body as JSON; on parse failure substitute
`{"success": False, "text": resp.text[:4000]}`; in both cases attach
`_http_status = resp.status_code`. -/
def ohc_post (r : HttpResp) : OhcResult :=
  match r.body with
  | some b => ⟨b.success, b.message, b.text, b.tasks, r.status⟩
  | none => ⟨some false, none, some (r.text.take 4000), none, r.status⟩

/-- The failure test applied to every API response:
`http >= 400 or not data.get("success", False)`. -/
def response_failed (d : OhcResult) : Bool :=
  decide (400 ≤ d.httpStatus) || !(d.success.getD false)

/-- The loop body of `build_existing_hash_set`: `h = t.get("hash")`, then
`if h:` — keep `h` only when it is truthy, i.e. present, non-null and
non-empty. -/
def extractHash (t : Task) : Option String :=
  match t.hash with
  | some h => if h = "" then none else some h
  | none => none

/-- `build_existing_hash_set`: `tasks_resp.get("tasks") or []`, then collect
the `hash` field of each entry, skipping entries whose hash is falsy
(missing, null, or the empty string).  The Python `set` is used only for
membership tests, so it is modelled as the list of collected hashes. -/
def build_existing_hash_set (resp : OhcResult) : List String :=
  (resp.tasks.getD []).filterMap extractHash

/-- The reconciliation comprehension of `main`:
`[h for h in hashes if h not in existing_hashes]`. -/
def reconcile (hashes existing : List String) : List String :=
  hashes.filter (fun h => decide (h ∉ existing))

/-- The New Hash Subset a normal run computes after a good list_tasks
response `lr`: local hashes minus the existing set extracted from `lr`. -/
def newHashesAfter (files : List (String × List String)) (lr : HttpResp) : List String :=
  reconcile (read_hashes_from_files files) (build_existing_hash_set (ohc_post lr))

/-- `list_tasks_mode`: one list_tasks call; exit 4 on transport failure,
3 when the response fails the API check, 0 otherwise. -/
def list_tasks_mode (w : World) : RunResult :=
  match w.listResp with
  | none => ⟨4, 1, [], none⟩
  | some lr =>
    let data := ohc_post lr
    if response_failed data then ⟨3, 1, [], none⟩
    else ⟨0, 1, [], none⟩

/-- The normal-mode body of `main` (steps 1–4 after the config checks). -/
def runNormal (cfg : Config) (w : World) : RunResult :=
  let hashes := read_hashes_from_files w.files
  if hashes = [] then ⟨0, 0, [], none⟩
  else
    match w.listResp with
    | none => ⟨4, 1, [], none⟩
    | some lr =>
      let tasksResp := ohc_post lr
      if response_failed tasksResp then ⟨3, 1, [], none⟩
      else
        let newHashes := reconcile hashes (build_existing_hash_set tasksResp)
        if newHashes = [] then ⟨0, 1, [], none⟩
        else if MAX_HASHES_PER_REQUEST < newHashes.length then
          ⟨1, 1, [], some (newHashes.drop MAX_HASHES_PER_REQUEST)⟩
        else
          let payload : SubmitPayload := ⟨cfg.apiKey, cfg.agreeTerms, ALGO_MODE, newHashes⟩
          match w.submitResp with
          | none => ⟨4, 1, [payload], none⟩
          | some sr =>
            let respData := ohc_post sr
            if response_failed respData then ⟨3, 1, [payload], none⟩
            else ⟨0, 1, [payload], none⟩

/-- The config checks of `main`:
`not API_KEY or API_KEY.strip().startswith("sk_XXX")` and
`AGREE_TERMS != "yes"`, each exiting 2; they run before the `-list`
dispatch. -/
def main (listFlag : Bool) (cfg : Config) (w : World) : RunResult :=
  if cfg.apiKey = "" ∨ pyStartsWith (pyStrip cfg.apiKey) "sk_XXX" = true then ⟨2, 0, [], none⟩
  else if ¬ (cfg.agreeTerms = "yes") then ⟨2, 0, [], none⟩
  else if listFlag then list_tasks_mode w
  else runNormal cfg w

/-- Index of the first occurrence of `a` in a list (length of the list when
absent); used to state first-occurrence order preservation. -/
def firstIdx (a : String) : List String → Nat
  | [] => 0
  | b :: t => if a = b then 0 else firstIdx a t + 1

/-- A config with a real-looking key, for exercising runs concretely. -/
def cfgOk : Config := ⟨"sk_live_0123", "yes"⟩

/-- The config shipped in the source: the placeholder key. -/
def cfgDefault : Config := ⟨API_KEY, AGREE_TERMS⟩

/-- A parsed response body reporting success, with no tasks. -/
def okBody : ApiBody := ⟨some true, none, none, some []⟩

/-- A 200 response whose body parsed and reports success. -/
def okResp : HttpResp := ⟨200, some okBody, ""⟩

/-- A 500 response whose body failed to parse as JSON. -/
def errResp : HttpResp := ⟨500, none, "Internal Server Error"⟩

/-- A 301 response — not 2xx, but also not >= 400 — whose parsed body
reports success. -/
def redirectResp : HttpResp := ⟨301, some okBody, ""⟩

/-- A 502 response whose body failed to parse as JSON. -/
def respParseFail : HttpResp := ⟨502, none, "bad gateway"⟩

/-- `n` distinct hash lines `h0`, `h1`, ... -/
def hashLines (n : Nat) : List String :=
  (List.range n).map (fun i => "h" ++ toString i)

/-- A world with one input file of `n` distinct hashes, a successful empty
list_tasks response, and a transport failure on submit. -/
def wN (n : Nat) : World :=
  ⟨[("a.hc22000", hashLines n)], some okResp, none⟩

/-- A world with no matching input files. -/
def wEmpty : World := ⟨[], none, none⟩

/-- A world whose list_tasks call returns the failing 500 response. -/
def wErr : World := ⟨[("a.hc22000", hashLines 1)], some errResp, none⟩

/-- A world whose list_tasks call returns the 301 success response. -/
def wRedirect : World := ⟨[], some redirectResp, none⟩

/-- A world that reaches the submit step and gets the failing 500 response
on submit. -/
def wSubmitErr : World :=
  ⟨[("a.hc22000", hashLines 1)], some okResp, some errResp⟩

/-- The submit payload issued by a run of `main false cfgOk (wN 1)`. -/
def pay1 : SubmitPayload := ⟨cfgOk.apiKey, cfgOk.agreeTerms, ALGO_MODE, ["h0"]⟩

theorem dedupeLoop_sublist (seen l : List String) : List.Sublist (dedupeLoop seen l) l := by
  induction l generalizing seen with
  | nil => simp [dedupeLoop]
  | cons x t ih =>
    simp only [dedupeLoop]
    split
    · exact (ih seen).trans (List.sublist_cons_self x t)
    · exact (ih (x :: seen)).cons₂ x

theorem mem_dedupeLoop {a : String} (seen l : List String) :
    a ∈ dedupeLoop seen l ↔ a ∈ l ∧ a ∉ seen := by
  induction l generalizing seen with
  | nil => simp [dedupeLoop]
  | cons x t ih =>
    simp only [dedupeLoop]
    split
    · rename_i hseen
      rw [ih seen]
      constructor
      · rintro ⟨ha, hn⟩
        exact ⟨List.mem_cons_of_mem x ha, hn⟩
      · rintro ⟨ha, hn⟩
        cases ha with
        | head => exact absurd hseen hn
        | tail _ ha => exact ⟨ha, hn⟩
    · rename_i hseen
      constructor
      · intro ha
        cases ha with
        | head => exact ⟨List.mem_cons_self a t, hseen⟩
        | tail _ ha =>
          obtain ⟨hat, hns⟩ := (ih (x :: seen)).mp ha
          exact ⟨List.mem_cons_of_mem x hat, fun hs => hns (List.mem_cons_of_mem x hs)⟩
      · rintro ⟨ha, hn⟩
        cases ha with
        | head => exact List.mem_cons_self a _
        | tail _ ha =>
          by_cases hax : a = x
          · rw [hax]
            exact List.mem_cons_self x _
          · refine List.mem_cons_of_mem x ((ih (x :: seen)).mpr ⟨ha, ?_⟩)
            intro hs
            exact (List.mem_cons.mp hs).elim hax hn

theorem dedupeLoop_nodup (seen l : List String) : (dedupeLoop seen l).Nodup := by
  induction l generalizing seen with
  | nil => simp [dedupeLoop]
  | cons x t ih =>
    simp only [dedupeLoop]
    split
    · exact ih seen
    · refine List.Nodup.cons ?_ (ih (x :: seen))
      intro hmem
      exact ((mem_dedupeLoop (x :: seen) t).mp hmem).2 (List.mem_cons_self x seen)

theorem firstIdx_cons_self (a : String) (t : List String) : firstIdx a (a :: t) = 0 := by
  simp [firstIdx]

theorem firstIdx_cons_ne {a b : String} (t : List String) (hab : a ≠ b) :
    firstIdx a (b :: t) = firstIdx a t + 1 := by
  simp [firstIdx, hab]

theorem dedupeLoop_pairwise_firstIdx (seen l : List String) :
    (dedupeLoop seen l).Pairwise (fun a b => firstIdx a l < firstIdx b l) := by
  induction l generalizing seen with
  | nil => simp [dedupeLoop]
  | cons x t ih =>
    simp only [dedupeLoop]
    split
    · rename_i hseen
      refine ((ih seen).imp_of_mem ?_)
      intro a b ha hb hab
      have hna : a ≠ x := by
        rintro rfl
        exact ((mem_dedupeLoop seen t).mp ha).2 hseen
      have hnb : b ≠ x := by
        rintro rfl
        exact ((mem_dedupeLoop seen t).mp hb).2 hseen
      rw [firstIdx_cons_ne t hna, firstIdx_cons_ne t hnb]
      omega
    · rename_i hseen
      refine List.Pairwise.cons ?_ ?_
      · intro b hb
        have hnb : b ≠ x := fun heq =>
          ((mem_dedupeLoop (x :: seen) t).mp hb).2 (List.mem_cons.mpr (Or.inl heq))
        rw [firstIdx_cons_self, firstIdx_cons_ne t hnb]
        omega
      · refine ((ih (x :: seen)).imp_of_mem ?_)
        intro a b ha hb hab
        have hna : a ≠ x := fun heq =>
          ((mem_dedupeLoop (x :: seen) t).mp ha).2 (List.mem_cons.mpr (Or.inl heq))
        have hnb : b ≠ x := fun heq =>
          ((mem_dedupeLoop (x :: seen) t).mp hb).2 (List.mem_cons.mpr (Or.inl heq))
        rw [firstIdx_cons_ne t hna, firstIdx_cons_ne t hnb]
        omega

theorem extractHash_eq_some (t : Task) (h : String) :
    extractHash t = some h ↔ t.hash = some h ∧ h ≠ "" := by
  obtain ⟨th⟩ := t
  cases th with
  | none => simp [extractHash]
  | some s =>
    by_cases hs : s = ""
    · subst hs
      simp only [extractHash, if_pos rfl]
      constructor
      · intro hc
        exact Option.noConfusion hc
      · rintro ⟨hsh, hne⟩
        exact absurd (Option.some.inj hsh).symm hne
    · simp only [extractHash, if_neg hs]
      constructor
      · intro hc
        exact ⟨hc, (Option.some.inj hc) ▸ hs⟩
      · rintro ⟨hc, _⟩
        exact hc

theorem response_failed_iff (d : OhcResult) :
    response_failed d = true ↔ 400 ≤ d.httpStatus ∨ d.success.getD false = false := by
  simp [response_failed, Bool.or_eq_true, decide_eq_true_eq, Bool.not_eq_true']

/-- C2: for every collection of input files, `read_hashes_from_files`
returns a sequence with no duplicates that is an order-preserving
subsequence of the concatenation of the cleaned (trimmed, non-empty,
non-comment) lines of all matching files in lexicographically sorted
filename order, contains exactly the entries of that concatenation, and
lists them in order of first occurrence (positions strictly increasing in
first-occurrence index). -/
theorem collector_nodup_first_occurrence_order (files : List (String × List String)) :
    (read_hashes_from_files files).Nodup ∧
    List.Sublist (read_hashes_from_files files) (cleanedConcat files) ∧
    (∀ a, a ∈ read_hashes_from_files files ↔ a ∈ cleanedConcat files) ∧
    (read_hashes_from_files files).Pairwise
      (fun a b => firstIdx a (cleanedConcat files) < firstIdx b (cleanedConcat files)) := by
  unfold read_hashes_from_files
  split
  · rename_i hf
    subst hf
    refine ⟨List.nodup_nil, ?_, ?_, List.Pairwise.nil⟩
    · simp [cleanedConcat, sortedFiles, List.insertionSort]
    · simp [cleanedConcat, sortedFiles, List.insertionSort]
  · refine ⟨dedupeLoop_nodup [] _, dedupeLoop_sublist [] _, ?_,
      dedupeLoop_pairwise_firstIdx [] _⟩
    intro a
    rw [mem_dedupeLoop]
    simp

/-- C2 witness: the collector property instantiated at a concrete pair of
files with whitespace, a comment line, a blank line and a duplicate. -/
theorem collector_nodup_first_occurrence_order_witness :
    (read_hashes_from_files [("b.hc22000", ["x", "y"]), ("a.hc22000", [" x ", "", "# c", "z"])]).Nodup ∧
    List.Sublist (read_hashes_from_files [("b.hc22000", ["x", "y"]), ("a.hc22000", [" x ", "", "# c", "z"])])
      (cleanedConcat [("b.hc22000", ["x", "y"]), ("a.hc22000", [" x ", "", "# c", "z"])]) ∧
    (∀ a, a ∈ read_hashes_from_files [("b.hc22000", ["x", "y"]), ("a.hc22000", [" x ", "", "# c", "z"])] ↔
      a ∈ cleanedConcat [("b.hc22000", ["x", "y"]), ("a.hc22000", [" x ", "", "# c", "z"])]) ∧
    (read_hashes_from_files [("b.hc22000", ["x", "y"]), ("a.hc22000", [" x ", "", "# c", "z"])]).Pairwise
      (fun a b => firstIdx a (cleanedConcat [("b.hc22000", ["x", "y"]), ("a.hc22000", [" x ", "", "# c", "z"])]) <
        firstIdx b (cleanedConcat [("b.hc22000", ["x", "y"]), ("a.hc22000", [" x ", "", "# c", "z"])])) :=
  collector_nodup_first_occurrence_order
    [("b.hc22000", ["x", "y"]), ("a.hc22000", [" x ", "", "# c", "z"])]

/-- C3: reconciliation is a proper set difference: every element of the
result avoids the existing set, every local hash lands in the result or in
the existing set, and the result is an order-preserving subsequence of the
local list. -/
theorem reconcile_set_difference (hashes existing : List String) :
    (∀ h, h ∈ reconcile hashes existing → h ∉ existing) ∧
    (∀ h, h ∈ hashes → h ∈ reconcile hashes existing ∨ h ∈ existing) ∧
    List.Sublist (reconcile hashes existing) hashes := by
  refine ⟨?_, ?_, List.filter_sublist hashes⟩
  · intro h hm
    simp only [reconcile, List.mem_filter, decide_eq_true_eq] at hm
    exact hm.2
  · intro h hm
    by_cases hx : h ∈ existing
    · exact Or.inr hx
    · refine Or.inl ?_
      simp only [reconcile, List.mem_filter, decide_eq_true_eq]
      exact ⟨hm, hx⟩

/-- C3 witness: at local list `["a", "b"]` and existing set `["b"]`, the
element `"a"` of the result is not in the existing set, and both local
elements land on one side of the partition. -/
theorem reconcile_set_difference_witness :
    ("a" ∉ (["b"] : List String)) ∧
    ("a" ∈ reconcile ["a", "b"] ["b"] ∨ "a" ∈ (["b"] : List String)) ∧
    ("b" ∈ reconcile ["a", "b"] ["b"] ∨ "b" ∈ (["b"] : List String)) :=
  ⟨(reconcile_set_difference ["a", "b"] ["b"]).1 "a" (by decide),
   (reconcile_set_difference ["a", "b"] ["b"]).2.1 "a" (by decide),
   (reconcile_set_difference ["a", "b"] ["b"]).2.1 "b" (by decide)⟩

/-- C10: `build_existing_hash_set` is total on malformed list-tasks
responses: a missing or null `tasks` field yields the empty set, and an
entry contributes a hash exactly when its hash field is present, non-null
and non-empty — entries with a missing, null or empty hash are excluded. -/
theorem build_existing_hash_set_total (resp : OhcResult) :
    (resp.tasks = none → build_existing_hash_set resp = []) ∧
    (∀ h, h ∈ build_existing_hash_set resp ↔
      h ≠ "" ∧ ∃ t, t ∈ resp.tasks.getD [] ∧ t.hash = some h) := by
  constructor
  · intro ht
    simp [build_existing_hash_set, ht]
  · intro h
    simp only [build_existing_hash_set, List.mem_filterMap]
    constructor
    · rintro ⟨t, htm, hf⟩
      obtain ⟨hth, hne⟩ := (extractHash_eq_some t h).mp hf
      exact ⟨hne, t, htm, hth⟩
    · rintro ⟨hne, t, htm, hth⟩
      exact ⟨t, htm, (extractHash_eq_some t h).mpr ⟨hth, hne⟩⟩

/-- C10 witness: a response whose `tasks` field is null yields the empty
existing set, and a task list with a null-hash entry, an empty-hash entry
and a real entry contributes exactly the real hash. -/
theorem build_existing_hash_set_total_witness :
    build_existing_hash_set ⟨some true, none, none, none, 200⟩ = [] ∧
    ("x" ∈ build_existing_hash_set ⟨some true, none, none, some [⟨none⟩, ⟨some ""⟩, ⟨some "x"⟩], 200⟩ ↔
      "x" ≠ "" ∧ ∃ t, t ∈ (some [(⟨none⟩ : Task), ⟨some ""⟩, ⟨some "x"⟩] : Option (List Task)).getD [] ∧
        t.hash = some "x") :=
  ⟨(build_existing_hash_set_total ⟨some true, none, none, none, 200⟩).1 rfl,
   (build_existing_hash_set_total ⟨some true, none, none, some [⟨none⟩, ⟨some ""⟩, ⟨some "x"⟩], 200⟩).2 "x"⟩

/-- C7: `ohc_post` always attaches the transport status code to its result,
and when the body fails to parse as JSON it substitutes a fallback whose
`text` is the raw response text truncated to 4000 characters (and whose
success flag is false). -/
theorem ohc_post_fallback_and_status (r : HttpResp) :
    (ohc_post r).httpStatus = r.status ∧
    (r.body = none →
      (ohc_post r).text = some (r.text.take 4000) ∧ (ohc_post r).success = some false) := by
  obtain ⟨st, body, txt⟩ := r
  cases body with
  | none => exact ⟨rfl, fun _ => ⟨rfl, rfl⟩⟩
  | some b => exact ⟨rfl, fun hb => Option.noConfusion hb⟩

/-- C7 witness: on the concrete 502 response with an unparseable body, the
status is attached and the fallback carries the truncated raw text. -/
theorem ohc_post_fallback_and_status_witness :
    (ohc_post respParseFail).httpStatus = respParseFail.status ∧
    ((ohc_post respParseFail).text = some (respParseFail.text.take 4000) ∧
      (ohc_post respParseFail).success = some false) :=
  ⟨(ohc_post_fallback_and_status respParseFail).1,
   (ohc_post_fallback_and_status respParseFail).2 rfl⟩

/-- C9: configuration validation precedes mode dispatch: in every
invocation — list flag set or not — an empty API key, a stripped key
starting with `sk_XXX`, or a terms flag other than `"yes"` ends the run
with exit code 2 before any network call and without writing the overflow
file. -/
theorem config_check_precedes_dispatch (listFlag : Bool) (cfg : Config) (w : World)
    (hbad : cfg.apiKey = "" ∨ pyStartsWith (pyStrip cfg.apiKey) "sk_XXX" = true ∨
      cfg.agreeTerms ≠ "yes") :
    main listFlag cfg w = ⟨2, 0, [], none⟩ := by
  unfold main
  rcases hbad with hk | hk | hk
  · rw [if_pos (Or.inl hk)]
  · rw [if_pos (Or.inr hk)]
  · by_cases h1 : cfg.apiKey = "" ∨ pyStartsWith (pyStrip cfg.apiKey) "sk_XXX" = true
    · rw [if_pos h1]
    · rw [if_neg h1, if_pos hk]

/-- C9 witness: with the placeholder key shipped in the source, even a
`-list` invocation exits 2 with zero network calls. -/
theorem config_check_precedes_dispatch_witness :
    main true cfgDefault wEmpty = ⟨2, 0, [], none⟩ :=
  config_check_precedes_dispatch true cfgDefault wEmpty (Or.inr (Or.inl (by decide)))

/-- C8: a normal-mode run with a valid configuration that collects no
hashes (no matching files, or only blank/comment lines) exits 0, makes no
network calls, and writes no overflow file. -/
theorem empty_collection_exits_zero (cfg : Config) (w : World)
    (hkey : ¬(cfg.apiKey = "" ∨ pyStartsWith (pyStrip cfg.apiKey) "sk_XXX" = true))
    (hterms : cfg.agreeTerms = "yes")
    (hempty : read_hashes_from_files w.files = []) :
    main false cfg w = ⟨0, 0, [], none⟩ := by
  unfold main
  rw [if_neg hkey, if_neg (not_not_intro hterms)]
  simp only [Bool.false_eq_true, if_false]
  unfold runNormal
  rw [hempty]
  simp

/-- C8 witness: valid key, no input files: exit 0, zero calls, no overflow
file. -/
theorem empty_collection_exits_zero_witness :
    main false cfgOk wEmpty = ⟨0, 0, [], none⟩ :=
  empty_collection_exits_zero cfgOk wEmpty (by decide) rfl (by decide)

theorem main_valid_normal (cfg : Config) (w : World)
    (hkey : ¬(cfg.apiKey = "" ∨ pyStartsWith (pyStrip cfg.apiKey) "sk_XXX" = true))
    (hterms : cfg.agreeTerms = "yes") :
    main false cfg w = runNormal cfg w := by
  unfold main
  rw [if_neg hkey, if_neg (not_not_intro hterms)]
  simp

theorem main_valid_list (cfg : Config) (w : World)
    (hkey : ¬(cfg.apiKey = "" ∨ pyStartsWith (pyStrip cfg.apiKey) "sk_XXX" = true))
    (hterms : cfg.agreeTerms = "yes") :
    main true cfg w = list_tasks_mode w := by
  unfold main
  rw [if_neg hkey, if_neg (not_not_intro hterms)]
  simp

theorem runNormal_gate (cfg : Config) (w : World) (lr : HttpResp)
    (hne : read_hashes_from_files w.files ≠ [])
    (hlr : w.listResp = some lr)
    (hok : response_failed (ohc_post lr) = false)
    (hnz : newHashesAfter w.files lr ≠ []) :
    runNormal cfg w =
      if MAX_HASHES_PER_REQUEST < (newHashesAfter w.files lr).length then
        ⟨1, 1, [], some ((newHashesAfter w.files lr).drop MAX_HASHES_PER_REQUEST)⟩
      else
        match w.submitResp with
        | none => ⟨4, 1, [⟨cfg.apiKey, cfg.agreeTerms, ALGO_MODE, newHashesAfter w.files lr⟩], none⟩
        | some sr =>
          if response_failed (ohc_post sr) = true then
            ⟨3, 1, [⟨cfg.apiKey, cfg.agreeTerms, ALGO_MODE, newHashesAfter w.files lr⟩], none⟩
          else
            ⟨0, 1, [⟨cfg.apiKey, cfg.agreeTerms, ALGO_MODE, newHashesAfter w.files lr⟩], none⟩ := by
  unfold newHashesAfter at hnz ⊢
  unfold runNormal
  rw [if_neg hne, hlr]
  simp only [hok, Bool.false_eq_true, if_false, if_neg hnz]

/-- C6: if a run reaches the submit call and that call fails at the
transport level, the run exits 4 and no overflow file is written; and the
overflow file is ever produced only when the New Hash Subset exceeds the
cap, in which case no submit call is made. -/
theorem submit_transport_failure_no_overflow (cfg : Config) (w : World) (lr : HttpResp)
    (hkey : ¬(cfg.apiKey = "" ∨ pyStartsWith (pyStrip cfg.apiKey) "sk_XXX" = true))
    (hterms : cfg.agreeTerms = "yes") :
    (w.listResp = some lr →
      response_failed (ohc_post lr) = false →
      newHashesAfter w.files lr ≠ [] →
      (newHashesAfter w.files lr).length ≤ MAX_HASHES_PER_REQUEST →
      w.submitResp = none →
      (main false cfg w).exitCode = 4 ∧ (main false cfg w).overflowFile = none) ∧
    ((main false cfg w).overflowFile ≠ none →
      ∃ lr2, w.listResp = some lr2 ∧
        MAX_HASHES_PER_REQUEST < (newHashesAfter w.files lr2).length ∧
        (main false cfg w).submitCalls = []) := by
  constructor
  · intro hlr hok hnz hle hsub
    have hne : read_hashes_from_files w.files ≠ [] := by
      intro h0
      apply hnz
      simp [newHashesAfter, reconcile, h0]
    rw [main_valid_normal cfg w hkey hterms,
      runNormal_gate cfg w lr hne hlr hok hnz, if_neg (not_lt_of_le hle), hsub]
    exact ⟨rfl, rfl⟩
  · intro hof
    rw [main_valid_normal cfg w hkey hterms] at hof ⊢
    simp only [runNormal] at hof
    split at hof
    · simp at hof
    · split at hof
      · simp at hof
      · rename_i lr2 heq
        split at hof
        · simp at hof
        · rename_i hfail
          split at hof
          · simp at hof
          · rename_i hnz2
            split at hof
            · rename_i hlen
              have hok2 : response_failed (ohc_post lr2) = false := by
                revert hfail
                cases response_failed (ohc_post lr2) <;> simp
              have hne2 : read_hashes_from_files w.files ≠ [] := by
                intro h0
                apply hnz2
                simp [reconcile, h0]
              have hlen2 : MAX_HASHES_PER_REQUEST < (newHashesAfter w.files lr2).length := hlen
              have hnz3 : newHashesAfter w.files lr2 ≠ [] := hnz2
              refine ⟨lr2, heq, hlen2, ?_⟩
              rw [runNormal_gate cfg w lr2 hne2 heq hok2 hnz3, if_pos hlen2]
            · split at hof
              · simp at hof
              · split at hof <;> simp at hof

/-- C6 witness: a concrete run with one new hash whose submit call fails at
the transport level exits 4 and writes no overflow file. -/
theorem submit_transport_failure_no_overflow_witness :
    (main false cfgOk (wN 1)).exitCode = 4 ∧ (main false cfgOk (wN 1)).overflowFile = none :=
  (submit_transport_failure_no_overflow cfgOk (wN 1) okResp (by decide) rfl).1
    rfl (by decide) (by decide) (by decide) rfl

/-- C5: every submit request a run ever issues carries at most
`MAX_HASHES_PER_REQUEST` (50) hashes, together with the configured access
key, the configured terms flag, and the fixed algorithm mode 22000. -/
theorem submit_payload_invariant (listFlag : Bool) (cfg : Config) (w : World)
    (p : SubmitPayload) (hp : p ∈ (main listFlag cfg w).submitCalls) :
    p.hashes.length ≤ MAX_HASHES_PER_REQUEST ∧ p.api_key = cfg.apiKey ∧
    p.agree_terms = cfg.agreeTerms ∧ p.algo_mode = ALGO_MODE := by
  unfold main at hp
  split at hp
  · simp at hp
  · split at hp
    · simp at hp
    · split at hp
      · unfold list_tasks_mode at hp
        split at hp
        · simp at hp
        · rename_i lr heq
          by_cases hc : response_failed (ohc_post lr) = true <;> simp [hc] at hp
      · simp only [runNormal] at hp
        split at hp
        · simp at hp
        · split at hp
          · simp at hp
          · split at hp
            · simp at hp
            · split at hp
              · simp at hp
              · split at hp
                · simp at hp
                · rename_i hlen
                  split at hp
                  · rw [List.mem_singleton] at hp
                    subst hp
                    refine ⟨?_, rfl, rfl, rfl⟩
                    dsimp only
                    omega
                  · split at hp <;>
                      (rw [List.mem_singleton] at hp
                       subst hp
                       refine ⟨?_, rfl, rfl, rfl⟩
                       dsimp only
                       omega)

/-- C5 witness: the one submit call of a concrete run with one new hash
satisfies the payload invariant. -/
theorem submit_payload_invariant_witness :
    pay1.hashes.length ≤ MAX_HASHES_PER_REQUEST ∧ pay1.api_key = cfgOk.apiKey ∧
    pay1.agree_terms = cfgOk.agreeTerms ∧ pay1.algo_mode = ALGO_MODE :=
  submit_payload_invariant false cfgOk (wN 1) pay1 (by decide)

/-- C4 counterexample: the code tests `http >= 400`, not "non-2xx".  A 301
response (non-2xx, but below 400) whose parsed body reports success makes
the list-mode run exit 0, not 3, refuting the claim as stated. -/
theorem api_error_exit3_counterexample :
    (main true cfgOk wRedirect).exitCode = 0 ∧
    ¬(200 ≤ redirectResp.status ∧ redirectResp.status ≤ 299) ∧
    (ohc_post redirectResp).success = some true := by decide

/-- C4 amended: for every API response with HTTP status at least 400, or
whose parsed body lacks a true success flag, the run terminates with exit
code 3 — in list mode, in normal mode at the list_tasks step, and in
normal mode at the submit step. -/
theorem api_error_exit3 (cfg : Config) (w : World)
    (hkey : ¬(cfg.apiKey = "" ∨ pyStartsWith (pyStrip cfg.apiKey) "sk_XXX" = true))
    (hterms : cfg.agreeTerms = "yes") :
    (∀ lr, w.listResp = some lr →
      (400 ≤ (ohc_post lr).httpStatus ∨ (ohc_post lr).success.getD false = false) →
      (main true cfg w).exitCode = 3) ∧
    (∀ lr, w.listResp = some lr →
      (400 ≤ (ohc_post lr).httpStatus ∨ (ohc_post lr).success.getD false = false) →
      read_hashes_from_files w.files ≠ [] →
      (main false cfg w).exitCode = 3) ∧
    (∀ lr sr, w.listResp = some lr →
      response_failed (ohc_post lr) = false →
      newHashesAfter w.files lr ≠ [] →
      (newHashesAfter w.files lr).length ≤ MAX_HASHES_PER_REQUEST →
      w.submitResp = some sr →
      (400 ≤ (ohc_post sr).httpStatus ∨ (ohc_post sr).success.getD false = false) →
      (main false cfg w).exitCode = 3) := by
  refine ⟨?_, ?_, ?_⟩
  · intro lr hlr hbad
    rw [main_valid_list cfg w hkey hterms]
    unfold list_tasks_mode
    rw [hlr]
    simp only [(response_failed_iff (ohc_post lr)).mpr hbad, if_true]
  · intro lr hlr hbad hne
    rw [main_valid_normal cfg w hkey hterms]
    unfold runNormal
    rw [if_neg hne, hlr]
    simp only [(response_failed_iff (ohc_post lr)).mpr hbad, if_true]
  · intro lr sr hlr hok hnz hle hsr hbad
    have hne : read_hashes_from_files w.files ≠ [] := by
      intro h0
      apply hnz
      simp [newHashesAfter, reconcile, h0]
    rw [main_valid_normal cfg w hkey hterms,
      runNormal_gate cfg w lr hne hlr hok hnz, if_neg (not_lt_of_le hle), hsr]
    simp only [(response_failed_iff (ohc_post sr)).mpr hbad, if_true]

/-- C4 witness: a concrete `-list` run whose list_tasks response is an
unparseable HTTP 500 exits 3. -/
theorem api_error_exit3_witness :
    (main true cfgOk ⟨[], some errResp, none⟩).exitCode = 3 :=
  (api_error_exit3 cfgOk ⟨[], some errResp, none⟩ (by decide) rfl).1
    errResp rfl (by decide)

/-- C1: Submission Gate boundary.  For a run reaching the gate: with
exactly 50 new hashes, exactly one submit call is made carrying all 50 and
no overflow file is written; with 51, no submit call is made, the overflow
file holds exactly the one entry at index 50 (the 51st in order), and the
exit code is 1. -/
theorem submission_gate_boundary (cfg : Config) (w : World) (lr : HttpResp)
    (hkey : ¬(cfg.apiKey = "" ∨ pyStartsWith (pyStrip cfg.apiKey) "sk_XXX" = true))
    (hterms : cfg.agreeTerms = "yes")
    (hfiles : read_hashes_from_files w.files ≠ [])
    (hlr : w.listResp = some lr)
    (hok : response_failed (ohc_post lr) = false) :
    ((newHashesAfter w.files lr).length = 50 →
      (main false cfg w).submitCalls =
        [⟨cfg.apiKey, cfg.agreeTerms, ALGO_MODE, newHashesAfter w.files lr⟩] ∧
      (main false cfg w).overflowFile = none) ∧
    ((newHashesAfter w.files lr).length = 51 →
      (main false cfg w).submitCalls = [] ∧
      (main false cfg w).overflowFile = some [(newHashesAfter w.files lr).getD 50 ""] ∧
      (main false cfg w).exitCode = 1) := by
  constructor
  · intro h50
    have hnz : newHashesAfter w.files lr ≠ [] := by
      intro h0
      rw [h0] at h50
      simp at h50
    rw [main_valid_normal cfg w hkey hterms, runNormal_gate cfg w lr hfiles hlr hok hnz]
    rw [if_neg (by simp only [MAX_HASHES_PER_REQUEST]; omega)]
    cases w.submitResp with
    | none => exact ⟨rfl, rfl⟩
    | some sr =>
      by_cases hc : response_failed (ohc_post sr) = true
      · simp [hc]
      · simp [hc]
  · intro h51
    have hnz : newHashesAfter w.files lr ≠ [] := by
      intro h0
      rw [h0] at h51
      simp at h51
    rw [main_valid_normal cfg w hkey hterms, runNormal_gate cfg w lr hfiles hlr hok hnz]
    rw [if_pos (by simp only [MAX_HASHES_PER_REQUEST]; omega)]
    refine ⟨rfl, ?_, rfl⟩
    have h50lt : 50 < (newHashesAfter w.files lr).length := by omega
    rw [show MAX_HASHES_PER_REQUEST = 50 from rfl]
    rw [List.drop_eq_getElem_cons h50lt, List.drop_eq_nil_of_le (by omega),
      List.getD_eq_getElem _ _ h50lt]

/-- C1 witness: a run whose one input file holds 51 distinct hashes (with
an empty remote account) makes no submit call, writes the single 51st hash
to the overflow file, and exits 1. -/
theorem submission_gate_boundary_witness :
    (main false cfgOk (wN 51)).submitCalls = [] ∧
    (main false cfgOk (wN 51)).overflowFile =
      some [(newHashesAfter (wN 51).files okResp).getD 50 ""] ∧
    (main false cfgOk (wN 51)).exitCode = 1 :=
  (submission_gate_boundary cfgOk (wN 51) okResp (by decide) rfl (by decide) rfl (by decide)).2
    (by decide)

end OhcUploader
